import Mathlib

/-!
Verification of the cell-absorption arena simulation (an agar-style game).

The development shallowly embeds the simulation core of the two source
files: the entity data model (cells, food pellets, rotating hexagon
structures), the split and merge mechanics with their cooldown gates, the
per-tick collision and consumption passes, and the autonomous bot steering
scan.  Numbers are modelled as exact reals; the single tick timestamp that
the source reads from the host clock is passed explicitly as a parameter.
Randomized quantities (the freshly drawn steering speed, the contents of
replacement spawns) are passed as parameters or counted as spawn-policy
invocations, since their values are drawn from a random source outside the
simulation core.
-/

open scoped Classical

noncomputable section

namespace Agario

/-- Merge and split cooldown in milliseconds, the MERGE_DELAY constant. -/
def MERGE_DELAY : ℝ := 2500

/-- Danger sensing range of the bot AI. -/
def dangerDistance : ℝ := 300

/-- Prey sensing range of the bot AI for non-boss bots. -/
def preyDistance : ℝ := 400

/-- Range below which a chasing bot considers a full-force split. -/
def splitDistance : ℝ := 150

/-- Maximum number of simultaneous player cells. -/
def MAX_CELLS : ℕ := 16

/-- Euclidean distance between two points, the distance utility of the
source (Math.hypot of the coordinate differences). -/
def distance (x1 y1 x2 y2 : ℝ) : ℝ :=
  Real.sqrt ((x2 - x1) ^ 2 + (y2 - y1) ^ 2)

/-- Circle-overlap test used by every collision and merge check in the
source: distance between centers strictly below the sum of the radii. -/
def hits (x1 y1 r1 x2 y2 r2 : ℝ) : Prop :=
  distance x1 y1 x2 y2 < r1 + r2

/-- A mass-bearing circular entity: player cell, AI bot cell, or boss.
Mirrors the Cell class fields of the source. -/
structure Cell where
  x : ℝ
  y : ℝ
  radius : ℝ
  mass : ℝ
  color : ℕ
  isPlayer : Bool
  vx : ℝ
  vy : ℝ
  extraVX : ℝ
  extraVY : ℝ
  drawRadius : ℝ
  isBoss : Bool
  lastSplitTime : ℝ

/-- The Cell constructor of the source: mass is the square of the given
radius, velocities and impulses start at zero, drawRadius starts at the
radius, the boss flag starts false, and lastSplitTime is stamped with the
current clock reading. -/
def Cell.create (x y radius : ℝ) (color : ℕ) (isPlayer : Bool) (now : ℝ) : Cell where
  x := x
  y := y
  radius := radius
  mass := radius ^ 2
  color := color
  isPlayer := isPlayer
  vx := 0
  vy := 0
  extraVX := 0
  extraVY := 0
  drawRadius := radius
  isBoss := false
  lastSplitTime := now

/-- The grow method of the Cell class: add the amount to the mass and
recompute the radius as the square root of the new mass. -/
def Cell.grow (c : Cell) (amount : ℝ) : Cell :=
  { c with mass := c.mass + amount, radius := Real.sqrt (c.mass + amount) }

/-- An inert food pellet, the Food class of the source. -/
structure Food where
  x : ℝ
  y : ℝ
  radius : ℝ
  color : ℕ

/-- A rotating bonus structure, the RotatingHexagon class of the source.
Its massBonus field is set to the square of its size at construction. -/
structure Hexagon where
  x : ℝ
  y : ℝ
  size : ℝ
  rot : ℝ
  rotSpeed : ℝ
  massBonus : ℝ

/-- The RotatingHexagon constructor: massBonus is size squared. -/
def Hexagon.create (x y size rot rotSpeed : ℝ) : Hexagon where
  x := x
  y := y
  size := size
  rot := rot
  rotSpeed := rotSpeed
  massBonus := size * size

/-- Cosine of the angle Math.atan2 y x, written out directly: the source
only ever uses atan2 composed with cos, so the embedding uses the exact
closed form, with the JavaScript convention that atan2 of the zero vector
is zero (cosine one). -/
def cosAtan2 (y x : ℝ) : ℝ :=
  if x = 0 ∧ y = 0 then 1 else x / Real.sqrt (x ^ 2 + y ^ 2)

/-- Sine of the angle Math.atan2 y x, companion of cosAtan2. -/
def sinAtan2 (y x : ℝ) : ℝ :=
  if x = 0 ∧ y = 0 then 0 else y / Real.sqrt (x ^ 2 + y ^ 2)

/-- The splitBot function of the bot AI file.  A bot below mass 40 is left
unchanged and no new bot is produced.  Otherwise the bot keeps half its
mass, its radius is recomputed, its split time is stamped, and a child bot
is ejected along the bot's current velocity heading with the given impulse
while the parent receives the opposite half-magnitude impulse.  The child
that the source pushes onto the global bot array is returned as the second
component. -/
def splitBot (now impulse : ℝ) (bot : Cell) : Cell × Option Cell :=
  if bot.mass < 40 then (bot, none)
  else
    let newMass := bot.mass / 2
    let ca := cosAtan2 bot.vy bot.vx
    let sa := sinAtan2 bot.vy bot.vx
    let newBot : Cell :=
      { Cell.create bot.x bot.y (Real.sqrt newMass) bot.color false now with
          mass := newMass
          radius := Real.sqrt newMass
          lastSplitTime := now
          extraVX := ca * impulse
          extraVY := sa * impulse
          x := bot.x + ca * impulse
          y := bot.y + sa * impulse }
    let bot' : Cell :=
      { bot with
          mass := newMass
          radius := Real.sqrt newMass
          lastSplitTime := now
          extraVX := bot.extraVX - ca * impulse * 0.5
          extraVY := bot.extraVY - sa * impulse * 0.5 }
    (bot', some newBot)

/-- Average center of the player cells, the getPlayerCenter function; for
an empty collection the source falls back to the canvas center, so the
canvas dimensions are explicit parameters. -/
def getPlayerCenter (cw ch : ℝ) (cells : List Cell) : ℝ × ℝ :=
  if cells = [] then (cw / 2, ch / 2)
  else ((cells.map Cell.x).sum / cells.length, (cells.map Cell.y).sum / cells.length)

/-- One iteration step of the splitPlayerCells loop applied to the cell at
index k of the current cell list.  Mirrors the body of the source loop:
halve the parent mass, recompute its radius, stamp its split time, build
the child at the parent position, aim the impulse of magnitude 10 at the
mouse target derived from the player center, eject the child and recoil
the parent, and append the child to the cell list. -/
def splitOneCell (now mx my cw ch : ℝ) (cur : List Cell) (k : ℕ) (cell : Cell) : List Cell :=
  let newMass := cell.mass / 2
  let center := getPlayerCenter cw ch cur
  let tx := center.1 + (mx - cw / 2)
  let ty := center.2 + (my - ch / 2)
  let ca := cosAtan2 (ty - cell.y) (tx - cell.x)
  let sa := sinAtan2 (ty - cell.y) (tx - cell.x)
  let impulse : ℝ := 10
  let newCell : Cell :=
    { Cell.create cell.x cell.y (Real.sqrt newMass) cell.color true now with
        mass := newMass
        lastSplitTime := now
        extraVX := ca * impulse
        extraVY := sa * impulse
        x := cell.x + ca * impulse
        y := cell.y + sa * impulse }
  let parent : Cell :=
    { cell with
        mass := newMass
        radius := Real.sqrt newMass
        lastSplitTime := now
        extraVX := cell.extraVX - ca * impulse * 0.5
        extraVY := cell.extraVY - sa * impulse * 0.5 }
  cur.set k parent ++ [newCell]

/-- The splitPlayerCells loop over the snapshot of the player cells.  The
snapshot is represented by the list of indices still to process: the
source iterates over a copy of the array while pushing children onto the
original, and a parent mutated in place sits at the same index of the
growing array.  The loop stops when the cell count reaches MAX_CELLS and
skips cells of mass below 80. -/
def splitPlayerCellsAux (now mx my cw ch : ℝ) : List ℕ → List Cell → List Cell
  | [], cur => cur
  | k :: ks, cur =>
    if MAX_CELLS ≤ cur.length then cur
    else
      match cur[k]? with
      | none => splitPlayerCellsAux now mx my cw ch ks cur
      | some cell =>
        if cell.mass < 80 then splitPlayerCellsAux now mx my cw ch ks cur
        else splitPlayerCellsAux now mx my cw ch ks (splitOneCell now mx my cw ch cur k cell)

/-- The splitPlayerCells function of the source. -/
def splitPlayerCells (now mx my cw ch : ℝ) (cells : List Cell) : List Cell :=
  splitPlayerCellsAux now mx my cw ch (List.range cells.length) cells

/-- The merged surviving cell produced by one merge of the
mergePlayerCells loop: position is the mass-weighted average of the two
centers, mass is the sum, radius is recomputed from the summed mass, and
the split time is reset to the merge time.  All other fields keep the
surviving cell's values. -/
def mergedCell (now : ℝ) (a b : Cell) : Cell :=
  { a with
      x := (a.x * a.mass + b.x * b.mass) / (a.mass + b.mass)
      y := (a.y * a.mass + b.y * b.mass) / (a.mass + b.mass)
      mass := a.mass + b.mass
      radius := Real.sqrt (a.mass + b.mass)
      lastSplitTime := now }

/-- Inner loop of mergePlayerCells: the cell at the outer index is checked
against every later cell; an overlapping pair merges exactly when both
cells have waited strictly longer than MERGE_DELAY since their last split,
the absorbed cell is spliced out, and scanning continues with the merged
survivor. -/
def mergeInner (now : ℝ) (a : Cell) : List Cell → Cell × List Cell
  | [] => (a, [])
  | b :: bs =>
    if hits a.x a.y a.radius b.x b.y b.radius then
      if now - a.lastSplitTime > MERGE_DELAY ∧ now - b.lastSplitTime > MERGE_DELAY then
        mergeInner now (mergedCell now a b) bs
      else
        let r := mergeInner now a bs
        (r.1, b :: r.2)
    else
      let r := mergeInner now a bs
      (r.1, b :: r.2)

theorem mergeInner_length (now : ℝ) (a : Cell) (l : List Cell) :
    (mergeInner now a l).2.length ≤ l.length := by
  induction l generalizing a with
  | nil => simp [mergeInner]
  | cons b bs ih =>
    simp only [mergeInner]
    split_ifs with h1 h2
    · exact le_trans (ih _) (Nat.le_succ _)
    · simpa using ih a
    · simpa using ih a

/-- Outer loop of mergePlayerCells: each cell in turn absorbs the eligible
overlapping cells that follow it, then the loop advances to the next
remaining cell. -/
def mergePass (now : ℝ) (cs : List Cell) : List Cell :=
  match cs with
  | [] => []
  | a :: rest =>
    let r := mergeInner now a rest
    r.1 :: mergePass now r.2
termination_by cs.length
decreasing_by
  simp only [List.length_cons, Nat.lt_succ_iff]
  apply mergeInner_length

/-- Inner loop of a cell-versus-food collision pass: the source scans the
food array from its last index down to zero, so the loop here receives the
reversed food list; every overlapping pellet is eaten, growing the cell by
half the squared pellet radius, removing the pellet, and invoking the
spawn policy once per pellet eaten.  Returns the grown cell, the reversed
remaining pellets, and the number of spawnFood invocations. -/
def foodInner (c : Cell) : List Food → Cell × List Food × ℕ
  | [] => (c, [], 0)
  | f :: fs =>
    if hits c.x c.y c.radius f.x f.y f.radius then
      let r := foodInner (c.grow (f.radius ^ 2 * 0.5)) fs
      (r.1, r.2.1, r.2.2 + 1)
    else
      let r := foodInner c fs
      (r.1, f :: r.2.1, r.2.2)

/-- A cell-versus-food collision pass over a list of cells, threading the
reversed food list through successive cells; the source runs this loop
once for the player cells and once for the bot cells. -/
def foodPassAux : List Cell → List Food → List Cell × List Food × ℕ
  | [], fs => ([], fs, 0)
  | c :: cs, fs =>
    let r := foodInner c fs
    let s := foodPassAux cs r.2.1
    (r.1 :: s.1, s.2.1, r.2.2 + s.2.2)

/-- Cell-versus-food collision pass with the foods in source order. -/
def foodPass (cells : List Cell) (foods : List Food) : List Cell × List Food × ℕ :=
  let r := foodPassAux cells foods.reverse
  (r.1, r.2.1.reverse, r.2.2)

/-- Outcome of scanning one bot against the player cells in the
player-versus-bot collision pass: either no actionable overlap was found,
or the bot was eaten by a player (which grew by half the bot mass), or a
player cell was eaten (removed without growing the bot).  The player list
is carried in reversed order because the source scans it from the end. -/
inductive PAct where
  | noAct : PAct
  | botEaten : List Cell → PAct
  | plEaten : List Cell → PAct

/-- Inner loop of the player-versus-bot pass for one bot over the reversed
player list: the first actionable overlap either grows that player by half
the bot mass (bot eaten) or removes that player (player eaten), and the
loop breaks; overlaps within the ten percent margin are skipped. -/
def paInner (ai : Cell) : List Cell → PAct
  | [] => PAct.noAct
  | p :: ps =>
    if hits p.x p.y p.radius ai.x ai.y ai.radius then
      if p.mass > ai.mass * 1.1 then PAct.botEaten (p.grow (ai.mass * 0.5) :: ps)
      else if ai.mass > p.mass * 1.1 then PAct.plEaten ps
      else
        match paInner ai ps with
        | PAct.noAct => PAct.noAct
        | PAct.botEaten r => PAct.botEaten (p :: r)
        | PAct.plEaten r => PAct.plEaten (p :: r)
    else
      match paInner ai ps with
      | PAct.noAct => PAct.noAct
      | PAct.botEaten r => PAct.botEaten (p :: r)
      | PAct.plEaten r => PAct.plEaten (p :: r)

/-- Outer loop of the player-versus-bot pass over the reversed bot list:
an eaten bot is removed and the bot spawn policy is invoked once; an eaten
player cell is removed and the game-over flag is raised when the player
list becomes empty.  Returns the reversed player list, the reversed
surviving bot list, the number of spawnAICell invocations, and the
game-over flag. -/
def paOuter : List Cell → List Cell → List Cell × List Cell × ℕ × Bool
  | [], ps => (ps, [], 0, false)
  | a :: as, ps =>
    match paInner a ps with
    | PAct.noAct =>
      let r := paOuter as ps
      (r.1, a :: r.2.1, r.2.2.1, r.2.2.2)
    | PAct.botEaten ps1 =>
      let r := paOuter as ps1
      (r.1, r.2.1, r.2.2.1 + 1, r.2.2.2)
    | PAct.plEaten ps1 =>
      let r := paOuter as ps1
      (r.1, a :: r.2.1, r.2.2.1, r.2.2.2 || ps1.isEmpty)

/-- Player-versus-bot collision pass in source order: the source iterates
both arrays from the last index down, which is the reversed order. -/
def paPass (ps as : List Cell) : List Cell × List Cell × ℕ × Bool :=
  let r := paOuter as.reverse ps.reverse
  (r.1.reverse, r.2.1.reverse, r.2.2.1, r.2.2.2)

/-- Outcome of the inner loop of the bot-versus-bot pass: either the outer
bot survived the scan of the later bots (with the grown outer bot, the
remaining later bots, and the spawn count), or the outer bot was eaten by
one of them (with the remaining later bots and the spawn count). -/
inductive AARes where
  | alive : Cell → List Cell → ℕ → AARes
  | eaten : List Cell → ℕ → AARes

/-- Later-bot list carried by an AARes value. -/
def AARes.rest : AARes → List Cell
  | AARes.alive _ r _ => r
  | AARes.eaten r _ => r

/-- Inner loop of the bot-versus-bot pass: the outer bot is checked
against every later bot; eating a smaller bot grows the outer bot, removes
the victim, invokes the spawn policy, and continues; being eaten by a
larger bot grows that bot, removes the outer bot, invokes the spawn
policy, and breaks out of the inner loop. -/
def aaInner (a : Cell) : List Cell → AARes
  | [] => AARes.alive a [] 0
  | b :: bs =>
    if hits a.x a.y a.radius b.x b.y b.radius then
      if a.mass > b.mass * 1.1 then
        match aaInner (a.grow (b.mass * 0.5)) bs with
        | AARes.alive a2 r n => AARes.alive a2 r (n + 1)
        | AARes.eaten r n => AARes.eaten r (n + 1)
      else if b.mass > a.mass * 1.1 then
        AARes.eaten (b.grow (a.mass * 0.5) :: bs) 1
      else
        match aaInner a bs with
        | AARes.alive a2 r n => AARes.alive a2 (b :: r) n
        | AARes.eaten r n => AARes.eaten (b :: r) n
    else
      match aaInner a bs with
      | AARes.alive a2 r n => AARes.alive a2 (b :: r) n
      | AARes.eaten r n => AARes.eaten (b :: r) n

theorem aaInner_rest_length (a : Cell) (l : List Cell) :
    (aaInner a l).rest.length ≤ l.length := by
  induction l generalizing a with
  | nil => simp [aaInner, AARes.rest]
  | cons b bs ih =>
    simp only [aaInner]
    split_ifs with h1 h2 h3
    · cases hr : aaInner (a.grow (b.mass * 0.5)) bs with
      | alive a2 r n =>
        have := ih (a.grow (b.mass * 0.5))
        rw [hr] at this
        simpa [AARes.rest] using le_trans this (Nat.le_succ _)
      | eaten r n =>
        have := ih (a.grow (b.mass * 0.5))
        rw [hr] at this
        simpa [AARes.rest] using le_trans this (Nat.le_succ _)
    · simp [AARes.rest]
    · cases hr : aaInner a bs with
      | alive a2 r n =>
        have := ih a
        rw [hr] at this
        simpa [AARes.rest] using this
      | eaten r n =>
        have := ih a
        rw [hr] at this
        simpa [AARes.rest] using this
    · cases hr : aaInner a bs with
      | alive a2 r n =>
        have := ih a
        rw [hr] at this
        simpa [AARes.rest] using this
      | eaten r n =>
        have := ih a
        rw [hr] at this
        simpa [AARes.rest] using this

/-- Outer loop of the bot-versus-bot collision pass, in forward source
order: after a bot finishes its inner scan it is kept, while a bot eaten
during its inner scan is dropped, and in both cases the loop continues on
the remaining later bots.  Returns the surviving bots and the number of
spawnAICell invocations. -/
def aaPass (cs : List Cell) : List Cell × ℕ :=
  match cs with
  | [] => ([], 0)
  | a :: rest =>
    match h : aaInner a rest with
    | AARes.alive a2 r n =>
      let s := aaPass r
      (a2 :: s.1, n + s.2)
    | AARes.eaten r n =>
      let s := aaPass r
      (s.1, n + s.2)
termination_by cs.length
decreasing_by
  · have hl := aaInner_rest_length b bs
    rw [h] at hl
    simp only [AARes.rest] at hl
    simpa [Nat.lt_succ_iff] using hl
  · have hl := aaInner_rest_length b bs
    rw [h] at hl
    simp only [AARes.rest] at hl
    simpa [Nat.lt_succ_iff] using hl

/-- Inner loop of the player-versus-hexagon pass: the source scans the
hexagon array from its last index down (reversed list here); every
overlapping hexagon grows the cell by one and a half times its mass
bonus, pushes a rainbow effect at the hexagon position, and is removed.
No spawn policy is invoked by this pass. -/
def hexInner (c : Cell) : List Hexagon → Cell × List Hexagon × List (ℝ × ℝ)
  | [] => (c, [], [])
  | h :: hs =>
    if hits c.x c.y c.radius h.x h.y h.size then
      let r := hexInner (c.grow (h.massBonus * 1.5)) hs
      (r.1, r.2.1, (h.x, h.y) :: r.2.2)
    else
      let r := hexInner c hs
      (r.1, h :: r.2.1, r.2.2)

/-- Player-versus-hexagon pass over the player cells, threading the
reversed hexagon list. -/
def hexPassAux : List Cell → List Hexagon → List Cell × List Hexagon × List (ℝ × ℝ)
  | [], hs => ([], hs, [])
  | c :: cs, hs =>
    let r := hexInner c hs
    let s := hexPassAux cs r.2.1
    (r.1 :: s.1, s.2.1, r.2.2 ++ s.2.2)

/-- Player-versus-hexagon collision pass with hexagons in source order. -/
def hexPass (cells : List Cell) (hexes : List Hexagon) :
    List Cell × List Hexagon × List (ℝ × ℝ) :=
  let r := hexPassAux cells hexes.reverse
  (r.1, r.2.1.reverse, r.2.2)

/-- The world state owned by the simulation: player cells, bot cells,
food pellets, hexagons, the rainbow-effect positions pushed so far, and
the game-over flag. -/
structure World where
  playerCells : List Cell
  aiCells : List Cell
  foods : List Food
  hexagons : List Hexagon
  rainbowEffects : List (ℝ × ℝ)
  gameOver : Bool

/-- Result of the consumption phase of one tick: the next world state plus
the number of spawnFood and spawnAICell policy invocations made during the
tick. -/
structure TickRes where
  world : World
  spawnFoodCalls : ℕ
  spawnAICalls : ℕ

/-- The collision, consumption, and merge portion of the updateGame
function, in exactly the source order: player cells versus food, bot
cells versus food, player cells versus bot cells, bot cells versus bot
cells, player cells versus hexagons, and finally the player merge pass. -/
def updateConsumption (now : ℝ) (w : World) : TickRes :=
  let f1 := foodPass w.playerCells w.foods
  let f2 := foodPass w.aiCells f1.2.1
  let pa := paPass f1.1 f2.1
  let aa := aaPass pa.2.1
  let hx := hexPass pa.1 w.hexagons
  let ps := mergePass now hx.1
  { world :=
      { playerCells := ps
        aiCells := aa.1
        foods := f2.2.1
        hexagons := hx.2.1
        rainbowEffects := w.rainbowEffects ++ hx.2.2
        gameOver := w.gameOver || pa.2.2.2 }
    spawnFoodCalls := f1.2.2 + f2.2.2
    spawnAICalls := pa.2.2.1 + aa.2 }

/-- Modelled from the spec for comparison with updateConsumption: the
consumption phase with the pass order the specification states, namely
body versus pellet first, then body versus bonus structure, then player
versus agent, then agent versus agent, with the merge pass still last.
The individual passes are the ones embedded from the source. -/
def specOrderConsumption (now : ℝ) (w : World) : TickRes :=
  let f1 := foodPass w.playerCells w.foods
  let f2 := foodPass w.aiCells f1.2.1
  let hx := hexPass f1.1 w.hexagons
  let pa := paPass hx.1 f2.1
  let aa := aaPass pa.2.1
  let ps := mergePass now pa.1
  { world :=
      { playerCells := ps
        aiCells := aa.1
        foods := f2.2.1
        hexagons := hx.2.1
        rainbowEffects := w.rainbowEffects ++ hx.2.2
        gameOver := w.gameOver || pa.2.2.2 }
    spawnFoodCalls := f1.2.2 + f2.2.2
    spawnAICalls := pa.2.2.1 + aa.2 }

/-- Prey range of a bot: boss cells chase within 600 units, others within
the plain prey range of 400. -/
def effectivePreyDistance (bot : Cell) : ℝ :=
  if bot.isBoss then 600 else preyDistance

/-- Result of the opponent scan of one bot in updateBotAI: the steering
accumulator, the contribution count, the bot after a possible split, the
list of bots that the scan pushed onto the bot array (at most one, since
the loop breaks after a split), and whether the split branch was taken. -/
structure ScanResult where
  sx : ℝ
  sy : ℝ
  cnt : ℕ
  bot : Cell
  newBots : List Cell
  triggered : Bool

/-- The opponent loop of updateBotAI for one bot: zero-distance opponents
are skipped; a larger opponent inside the danger range contributes a flee
unit vector; a smaller opponent inside the prey range contributes a chase
unit vector and, when it is small enough (boss threshold 0.45, otherwise
one third), closer than the split distance, and the split cooldown has
elapsed, triggers splitBot with the full-force impulse of 20 and breaks
out of the loop. -/
def botScanAux (now : ℝ) (bot : Cell) (sx sy : ℝ) (cnt : ℕ) : List Cell → ScanResult
  | [] => ⟨sx, sy, cnt, bot, [], false⟩
  | op :: rest =>
    let d := distance bot.x bot.y op.x op.y
    if d = 0 then botScanAux now bot sx sy cnt rest
    else
      let sx1 := if op.mass > bot.mass * 1.1 ∧ d < dangerDistance then sx - (op.x - bot.x) / d else sx
      let sy1 := if op.mass > bot.mass * 1.1 ∧ d < dangerDistance then sy - (op.y - bot.y) / d else sy
      let c1 := if op.mass > bot.mass * 1.1 ∧ d < dangerDistance then cnt + 1 else cnt
      if op.mass < bot.mass * 0.9 ∧ d < effectivePreyDistance bot then
        let sx2 := sx1 + (op.x - bot.x) / d
        let sy2 := sy1 + (op.y - bot.y) / d
        if ((bot.isBoss ∧ op.mass < bot.mass * 0.45) ∨ (¬bot.isBoss ∧ op.mass < bot.mass / 3))
            ∧ d < splitDistance ∧ now - bot.lastSplitTime > MERGE_DELAY then
          let r := splitBot now 20 bot
          ⟨sx2, sy2, c1 + 1, r.1, r.2.toList, true⟩
        else botScanAux now bot sx2 sy2 (c1 + 1) rest
      else botScanAux now bot sx1 sy1 c1 rest

/-- Opponent scan of one bot started with an empty accumulator. -/
def botScan (now : ℝ) (bot : Cell) (ops : List Cell) : ScanResult :=
  botScanAux now bot 0 0 0 ops

/-- The steering update that follows the opponent loop in updateBotAI:
with at least one contribution, the accumulator is averaged over the
count, normalized when its magnitude is positive, and scaled by the
freshly drawn speed to become the bot velocity; with no contribution the
bot is left untouched. -/
def applySteer (speed sx sy : ℝ) (cnt : ℕ) (bot : Cell) : Cell :=
  if 0 < cnt then
    let ax := sx / (cnt : ℝ)
    let ay := sy / (cnt : ℝ)
    let mag := Real.sqrt (ax ^ 2 + ay ^ 2)
    let nx := if mag > 0 then ax / mag else ax
    let ny := if mag > 0 then ay / mag else ay
    { bot with vx := nx * speed, vy := ny * speed }
  else bot

/-- The per-bot body of updateBotAI: scan the opponents, then apply the
steering update; the randomly drawn speed is a parameter.  Returns the
updated bot and the bots pushed by a split. -/
def updateBotOne (now speed : ℝ) (bot : Cell) (opponents : List Cell) : Cell × List Cell :=
  let r := botScan now bot opponents
  (applySteer speed r.sx r.sy r.cnt r.bot, r.newBots)

/-- World-level view of mergePlayerCells: the source function reads and
writes only the player-cell array, leaving every other collection and the
game-over flag untouched. -/
def mergeWorld (now : ℝ) (w : World) : World :=
  { w with playerCells := mergePass now w.playerCells }

/-- Concrete cell builder for witnesses and counterexamples: position,
radius, mass, velocity, flags, and split timestamp are given; color,
impulses are zero and drawRadius starts at the radius. -/
def mkCell (x y radius mass vx vy : ℝ) (isPlayer isBoss : Bool) (t : ℝ) : Cell :=
  ⟨x, y, radius, mass, 0, isPlayer, vx, vy, 0, 0, radius, isBoss, t⟩

theorem mergePass_nil (now : ℝ) : mergePass now [] = [] := by
  rw [mergePass]

theorem mergePass_cons (now : ℝ) (a : Cell) (rest : List Cell) :
    mergePass now (a :: rest) =
      (mergeInner now a rest).1 :: mergePass now (mergeInner now a rest).2 := by
  rw [mergePass]

theorem mergeInner_pair_pos (now : ℝ) (a b : Cell)
    (hov : hits a.x a.y a.radius b.x b.y b.radius)
    (hcd : now - a.lastSplitTime > MERGE_DELAY ∧ now - b.lastSplitTime > MERGE_DELAY) :
    mergeInner now a [b] = (mergedCell now a b, []) := by
  simp only [mergeInner]
  rw [if_pos hov, if_pos hcd]

theorem mergeInner_pair_neg (now : ℝ) (a b : Cell)
    (hcd : ¬(now - a.lastSplitTime > MERGE_DELAY ∧ now - b.lastSplitTime > MERGE_DELAY)) :
    mergeInner now a [b] = (a, [b]) := by
  simp only [mergeInner]
  by_cases hov : hits a.x a.y a.radius b.x b.y b.radius
  · rw [if_pos hov, if_neg hcd]
  · rw [if_neg hov]

theorem mergeInner_pair_noov (now : ℝ) (a b : Cell)
    (hov : ¬ hits a.x a.y a.radius b.x b.y b.radius) :
    mergeInner now a [b] = (a, [b]) := by
  simp only [mergeInner]
  rw [if_neg hov]

theorem splitPlayerCellsAux_small (now mx my cw ch : ℝ) (idxs : List ℕ) (cur : List Cell)
    (h : ∀ c ∈ cur, c.mass < 80) :
    splitPlayerCellsAux now mx my cw ch idxs cur = cur := by
  induction idxs with
  | nil => rfl
  | cons k ks ih =>
    simp only [splitPlayerCellsAux]
    split_ifs with h16
    · rfl
    · cases hk : cur[k]? with
      | none => exact ih
      | some cell =>
        have hm : cell.mass < 80 := by
          apply h
          obtain ⟨hl, rfl⟩ := List.getElem?_eq_some.mp hk
          exact List.getElem_mem hl
        show (if cell.mass < 80 then splitPlayerCellsAux now mx my cw ch ks cur
          else splitPlayerCellsAux now mx my cw ch ks
            (splitOneCell now mx my cw ch cur k cell)) = cur
        rw [if_pos hm]
        exact ih

/-- C1 (amended): a split request for a body whose mass is below the
minimum viable threshold is silently rejected with no state change; the
threshold is 40 for bot splits but 80 for the manual player split, and a
player cell of mass at least 80 with the body count below 16 is not
rejected, a new body being appended. -/
theorem c1_split_thresholds :
    (∀ (now imp : ℝ) (bot : Cell), bot.mass < 40 → splitBot now imp bot = (bot, none)) ∧
    (∀ (now mx my cw ch : ℝ) (cells : List Cell), (∀ c ∈ cells, c.mass < 80) →
        splitPlayerCells now mx my cw ch cells = cells) ∧
    (∀ (now mx my cw ch : ℝ) (c : Cell), ¬ c.mass < 80 →
        (splitPlayerCells now mx my cw ch [c]).length = 2) := by
  refine ⟨?_, ?_, ?_⟩
  · intro now imp bot h
    simp [splitBot, h]
  · intro now mx my cw ch cells h
    exact splitPlayerCellsAux_small now mx my cw ch _ cells h
  · intro now mx my cw ch c hc
    simp only [splitPlayerCells]
    rw [show List.range ([c] : List Cell).length = [0] from rfl]
    simp only [splitPlayerCellsAux]
    rw [if_neg (by norm_num [MAX_CELLS])]
    simp only [List.getElem?_cons_zero]
    rw [if_neg hc]
    simp [splitPlayerCellsAux, splitOneCell]

/-- Concrete player cell of mass 50 used to refute C1 as stated. -/
def cellFifty : Cell := mkCell 0 0 (Real.sqrt 50) 50 0 0 true false 0

/-- C1 counterexample: a player cell of mass 50, above the claimed
threshold of 40 and with the body count 1 below the maximum of 16, still
has its split request rejected with no state change, because the source
requires player mass at least 80. -/
theorem c1_counterexample :
    ¬ cellFifty.mass < 40 ∧ ([cellFifty] : List Cell).length < MAX_CELLS ∧
    splitPlayerCells 0 0 0 0 0 [cellFifty] = [cellFifty] := by
  refine ⟨by norm_num [cellFifty, mkCell], by norm_num [MAX_CELLS], ?_⟩
  rw [splitPlayerCells]
  apply splitPlayerCellsAux_small
  intro c hc
  simp only [List.mem_singleton] at hc
  subst hc
  norm_num [cellFifty, mkCell]

/-- C1 witness instantiating the amended theorem: a bot of mass 30 is
rejected, a player list whose sole cell has mass 30 is unchanged, and a
player cell of mass 100 splits into two bodies. -/
theorem c1_witness :
    splitBot 0 10 (mkCell 0 0 (Real.sqrt 30) 30 0 0 false false 0) =
      (mkCell 0 0 (Real.sqrt 30) 30 0 0 false false 0, none) ∧
    splitPlayerCells 0 0 0 0 0 [mkCell 0 0 (Real.sqrt 30) 30 0 0 true false 0] =
      [mkCell 0 0 (Real.sqrt 30) 30 0 0 true false 0] ∧
    (splitPlayerCells 0 0 0 0 0 [mkCell 0 0 10 100 0 0 true false 0]).length = 2 := by
  refine ⟨?_, ?_, ?_⟩
  · exact c1_split_thresholds.1 0 10 _ (by norm_num [mkCell])
  · exact c1_split_thresholds.2.1 0 0 0 0 0 _ (by
      intro c hc
      simp only [List.mem_singleton] at hc
      subst hc
      norm_num [mkCell])
  · exact c1_split_thresholds.2.2 0 0 0 0 0 _ (by norm_num [mkCell])

/-- C2: an overlapping pair of player cells merges in the merge pass if
and only if both have waited strictly longer than the 2500 millisecond
cooldown since their last split; the merged survivor carries the summed
mass, the mass-weighted average position, and the merge time as its new
split timestamp, and the absorbed cell is removed. -/
theorem c2_merge_pair (now : ℝ) (a b : Cell)
    (hov : hits a.x a.y a.radius b.x b.y b.radius) :
    ((now - a.lastSplitTime > MERGE_DELAY ∧ now - b.lastSplitTime > MERGE_DELAY) →
        mergePass now [a, b] = [mergedCell now a b]) ∧
    (¬(now - a.lastSplitTime > MERGE_DELAY ∧ now - b.lastSplitTime > MERGE_DELAY) →
        mergePass now [a, b] = [a, b]) ∧
    ((mergePass now [a, b]).length = 1 ↔
        (now - a.lastSplitTime > MERGE_DELAY ∧ now - b.lastSplitTime > MERGE_DELAY)) ∧
    (mergedCell now a b).mass = a.mass + b.mass ∧
    (mergedCell now a b).x = (a.x * a.mass + b.x * b.mass) / (a.mass + b.mass) ∧
    (mergedCell now a b).y = (a.y * a.mass + b.y * b.mass) / (a.mass + b.mass) ∧
    (mergedCell now a b).lastSplitTime = now := by
  have hpos : (now - a.lastSplitTime > MERGE_DELAY ∧ now - b.lastSplitTime > MERGE_DELAY) →
      mergePass now [a, b] = [mergedCell now a b] := by
    intro hcd
    rw [mergePass_cons, mergeInner_pair_pos now a b hov hcd]
    simp [mergePass_nil]
  have hneg : ∀ (_ : ¬(now - a.lastSplitTime > MERGE_DELAY ∧
      now - b.lastSplitTime > MERGE_DELAY)), mergePass now [a, b] = [a, b] := by
    intro hcd
    rw [mergePass_cons, mergeInner_pair_neg now a b hcd]
    simp only
    rw [mergePass_cons]
    simp [mergeInner, mergePass_nil]
  refine ⟨hpos, hneg, ?_, by simp [mergedCell], by simp [mergedCell], by simp [mergedCell],
    by simp [mergedCell]⟩
  constructor
  · intro hlen
    by_contra hcd
    rw [hneg hcd] at hlen
    simp at hlen
  · intro hcd
    rw [hpos hcd]
    simp

/-- Player cells of mass 50 and 70 at a common center, last split at time
zero, used as the C2 witness pair. -/
def cellFiftyM : Cell := mkCell 0 0 (Real.sqrt 50) 50 0 0 true false 0

/-- Companion cell of mass 70 for the C2 witness. -/
def cellSeventyM : Cell := mkCell 0 0 (Real.sqrt 70) 70 0 0 true false 0

/-- C2 witness: the mass 50 and mass 70 cells overlap 3000 milliseconds
after their last split, so the pass merges them into a single body of
mass 120 stamped with the merge time. -/
theorem c2_witness :
    mergePass 3000 [cellFiftyM, cellSeventyM] = [mergedCell 3000 cellFiftyM cellSeventyM] ∧
    (mergedCell 3000 cellFiftyM cellSeventyM).mass = 120 ∧
    (mergedCell 3000 cellFiftyM cellSeventyM).lastSplitTime = 3000 := by
  have hov : hits cellFiftyM.x cellFiftyM.y cellFiftyM.radius
      cellSeventyM.x cellSeventyM.y cellSeventyM.radius := by
    simp only [hits, cellFiftyM, cellSeventyM, mkCell, distance]
    rw [show ((0:ℝ) - 0) ^ 2 + ((0:ℝ) - 0) ^ 2 = 0 by ring, Real.sqrt_zero]
    have h1 : (0:ℝ) < Real.sqrt 50 := Real.sqrt_pos.mpr (by norm_num)
    have h2 : (0:ℝ) < Real.sqrt 70 := Real.sqrt_pos.mpr (by norm_num)
    linarith
  have h := c2_merge_pair 3000 cellFiftyM cellSeventyM hov
  have hcd : (3000:ℝ) - cellFiftyM.lastSplitTime > MERGE_DELAY ∧
      (3000:ℝ) - cellSeventyM.lastSplitTime > MERGE_DELAY := by
    constructor <;> norm_num [cellFiftyM, cellSeventyM, mkCell, MERGE_DELAY]
  refine ⟨h.1 hcd, ?_, h.2.2.2.2.2.2⟩
  rw [h.2.2.2.1]
  norm_num [cellFiftyM, cellSeventyM, mkCell]

/-- C3: every successful split, player or bot, gives both resulting
bodies exactly half the pre-split mass, so the two masses sum exactly to
the original, and the split time is stamped on both bodies. -/
theorem c3_split_halves (now mx my cw ch imp : ℝ) (c bot : Cell)
    (hc : ¬ c.mass < 80) (hb : ¬ bot.mass < 40) :
    (splitPlayerCells now mx my cw ch [c]).map Cell.mass = [c.mass / 2, c.mass / 2] ∧
    (splitPlayerCells now mx my cw ch [c]).map Cell.lastSplitTime = [now, now] ∧
    c.mass / 2 + c.mass / 2 = c.mass ∧
    (splitBot now imp bot).1.mass = bot.mass / 2 ∧
    (splitBot now imp bot).2.map Cell.mass = some (bot.mass / 2) ∧
    (splitBot now imp bot).1.lastSplitTime = now ∧
    (splitBot now imp bot).2.map Cell.lastSplitTime = some now ∧
    bot.mass / 2 + bot.mass / 2 = bot.mass := by
  have hsplit : splitPlayerCells now mx my cw ch [c] =
      splitOneCell now mx my cw ch [c] 0 c ++ [] := by
    simp only [splitPlayerCells]
    rw [show List.range ([c] : List Cell).length = [0] from rfl]
    simp only [splitPlayerCellsAux]
    rw [if_neg (by norm_num [MAX_CELLS])]
    simp only [List.getElem?_cons_zero]
    rw [if_neg hc]
    simp [splitPlayerCellsAux]
  refine ⟨?_, ?_, by ring, by simp [splitBot, hb], by simp [splitBot, hb],
    by simp [splitBot, hb], by simp [splitBot, hb], by ring⟩
  · rw [hsplit]
    simp [splitOneCell, Cell.create]
  · rw [hsplit]
    simp [splitOneCell, Cell.create]

/-- C3 witness: a player cell of mass 100 splits into masses 50 and 50
stamped at the split time 7, and a bot of mass 50 splits into halves of
mass 25. -/
theorem c3_witness :
    (splitPlayerCells 7 0 0 0 0 [mkCell 0 0 10 100 0 0 true false 0]).map Cell.mass =
      [50, 50] ∧
    (splitPlayerCells 7 0 0 0 0 [mkCell 0 0 10 100 0 0 true false 0]).map
      Cell.lastSplitTime = [7, 7] ∧
    (splitBot 7 10 (mkCell 0 0 (Real.sqrt 50) 50 1 0 false false 0)).1.mass = 25 := by
  have h := c3_split_halves 7 0 0 0 0 10 (mkCell 0 0 10 100 0 0 true false 0)
    (mkCell 0 0 (Real.sqrt 50) 50 1 0 false false 0)
    (by norm_num [mkCell]) (by norm_num [mkCell])
  refine ⟨?_, h.2.1, ?_⟩
  · rw [h.1]
    norm_num [mkCell]
  · rw [h.2.2.2.1]
    norm_num [mkCell]

/-- C10: one merge changes only the survivor's position, mass, radius and
split time, keeping its steering velocity, split impulse, color, display
radius and role flags; a pair that does not merge is returned unchanged;
and the merge function leaves the bot, food, hexagon and effect
collections and the game-over flag of the world untouched. -/
theorem c10_merge_frame (now : ℝ) (a b : Cell) (w : World)
    (hov : hits a.x a.y a.radius b.x b.y b.radius)
    (hcd : now - a.lastSplitTime > MERGE_DELAY ∧ now - b.lastSplitTime > MERGE_DELAY) :
    mergePass now [a, b] = [mergedCell now a b] ∧
    (mergedCell now a b).vx = a.vx ∧
    (mergedCell now a b).vy = a.vy ∧
    (mergedCell now a b).extraVX = a.extraVX ∧
    (mergedCell now a b).extraVY = a.extraVY ∧
    (mergedCell now a b).color = a.color ∧
    (mergedCell now a b).drawRadius = a.drawRadius ∧
    (mergedCell now a b).isPlayer = a.isPlayer ∧
    (mergedCell now a b).isBoss = a.isBoss ∧
    (∀ a' b' : Cell, ¬(now - a'.lastSplitTime > MERGE_DELAY ∧
        now - b'.lastSplitTime > MERGE_DELAY) → mergePass now [a', b'] = [a', b']) ∧
    (∀ a' b' : Cell, ¬ hits a'.x a'.y a'.radius b'.x b'.y b'.radius →
        mergePass now [a', b'] = [a', b']) ∧
    (mergeWorld now w).aiCells = w.aiCells ∧
    (mergeWorld now w).foods = w.foods ∧
    (mergeWorld now w).hexagons = w.hexagons ∧
    (mergeWorld now w).rainbowEffects = w.rainbowEffects ∧
    (mergeWorld now w).gameOver = w.gameOver := by
  refine ⟨?_, by simp [mergedCell], by simp [mergedCell], by simp [mergedCell],
    by simp [mergedCell], by simp [mergedCell], by simp [mergedCell], by simp [mergedCell],
    by simp [mergedCell], ?_, ?_, by simp [mergeWorld], by simp [mergeWorld],
    by simp [mergeWorld], by simp [mergeWorld], by simp [mergeWorld]⟩
  · rw [mergePass_cons, mergeInner_pair_pos now a b hov hcd]
    simp [mergePass_nil]
  · intro a' b' hcd'
    rw [mergePass_cons, mergeInner_pair_neg now a' b' hcd']
    simp only
    rw [mergePass_cons]
    simp [mergeInner, mergePass_nil]
  · intro a' b' hov'
    rw [mergePass_cons, mergeInner_pair_noov now a' b' hov']
    simp only
    rw [mergePass_cons]
    simp [mergeInner, mergePass_nil]

/-- C10 witness: the mass 50 and mass 70 pair at time 3000 merges and the
survivor keeps velocity, impulse, color, display radius and flags, on a
world carrying one food pellet and no bots. -/
theorem c10_witness :
    mergePass 3000 [mkCell 0 0 (Real.sqrt 50) 50 2 3 true false 0,
        mkCell 0 0 (Real.sqrt 70) 70 0 0 true false 0] =
      [mergedCell 3000 (mkCell 0 0 (Real.sqrt 50) 50 2 3 true false 0)
        (mkCell 0 0 (Real.sqrt 70) 70 0 0 true false 0)] ∧
    (mergedCell 3000 (mkCell 0 0 (Real.sqrt 50) 50 2 3 true false 0)
        (mkCell 0 0 (Real.sqrt 70) 70 0 0 true false 0)).vx = 2 ∧
    (mergeWorld 3000 ⟨[], [], [⟨1, 2, 3, 0⟩], [], [], false⟩).foods = [⟨1, 2, 3, 0⟩] := by
  have hov : hits (mkCell 0 0 (Real.sqrt 50) 50 2 3 true false 0).x
      (mkCell 0 0 (Real.sqrt 50) 50 2 3 true false 0).y
      (mkCell 0 0 (Real.sqrt 50) 50 2 3 true false 0).radius
      (mkCell 0 0 (Real.sqrt 70) 70 0 0 true false 0).x
      (mkCell 0 0 (Real.sqrt 70) 70 0 0 true false 0).y
      (mkCell 0 0 (Real.sqrt 70) 70 0 0 true false 0).radius := by
    simp only [hits, mkCell, distance]
    rw [show ((0:ℝ) - 0) ^ 2 + ((0:ℝ) - 0) ^ 2 = 0 by ring, Real.sqrt_zero]
    have h1 : (0:ℝ) < Real.sqrt 50 := Real.sqrt_pos.mpr (by norm_num)
    have h2 : (0:ℝ) < Real.sqrt 70 := Real.sqrt_pos.mpr (by norm_num)
    linarith
  have h := c10_merge_frame 3000 (mkCell 0 0 (Real.sqrt 50) 50 2 3 true false 0)
    (mkCell 0 0 (Real.sqrt 70) 70 0 0 true false 0)
    ⟨[], [], [⟨1, 2, 3, 0⟩], [], [], false⟩ hov
    (by constructor <;> norm_num [mkCell, MERGE_DELAY])
  refine ⟨h.1, ?_, h.2.2.2.2.2.2.2.2.2.2.2.2.1⟩
  rw [h.2.1]
  norm_num [mkCell]

theorem paPass_pair_eatAI (p a : Cell)
    (hov : hits p.x p.y p.radius a.x a.y a.radius)
    (h : p.mass > a.mass * 1.1) :
    paPass [p] [a] = ([p.grow (a.mass * 0.5)], [], 1, false) := by
  simp only [paPass, List.reverse_singleton, paOuter, paInner]
  rw [if_pos hov, if_pos h]
  rfl

theorem paPass_pair_eatPlayer (p a : Cell)
    (hov : hits p.x p.y p.radius a.x a.y a.radius)
    (h1 : ¬ p.mass > a.mass * 1.1) (h2 : a.mass > p.mass * 1.1) :
    paPass [p] [a] = ([], [a], 0, true) := by
  simp only [paPass, List.reverse_singleton, paOuter, paInner]
  rw [if_pos hov, if_neg h1, if_pos h2]
  rfl

theorem paPass_pair_noop (p a : Cell)
    (h1 : ¬ p.mass > a.mass * 1.1) (h2 : ¬ a.mass > p.mass * 1.1) :
    paPass [p] [a] = ([p], [a], 0, false) := by
  simp only [paPass, List.reverse_singleton, paOuter, paInner]
  by_cases hov : hits p.x p.y p.radius a.x a.y a.radius
  · rw [if_pos hov, if_neg h1, if_neg h2]
    rfl
  · rw [if_neg hov]
    rfl

theorem aaPass_nil : aaPass [] = ([], 0) := by
  rw [aaPass]

theorem aaPass_cons_alive (a a2 : Cell) (rest r : List Cell) (n : ℕ)
    (h : aaInner a rest = AARes.alive a2 r n) :
    aaPass (a :: rest) = (a2 :: (aaPass r).1, n + (aaPass r).2) := by
  rw [aaPass]
  split
  · rename_i a2' r' n' heq
    rw [h] at heq
    injection heq with h1 h2 h3
    subst h1; subst h2; subst h3
    rfl
  · rename_i r' n' heq
    rw [h] at heq
    exact absurd heq (by simp)

theorem aaPass_cons_eaten (a : Cell) (rest r : List Cell) (n : ℕ)
    (h : aaInner a rest = AARes.eaten r n) :
    aaPass (a :: rest) = ((aaPass r).1, n + (aaPass r).2) := by
  rw [aaPass]
  split
  · rename_i a2' r' n' heq
    rw [h] at heq
    exact absurd heq (by simp)
  · rename_i r' n' heq
    rw [h] at heq
    injection heq with h1 h2
    subst h1; subst h2
    rfl

theorem aaPass_pair_firstEats (b c : Cell)
    (hov : hits b.x b.y b.radius c.x c.y c.radius)
    (h : b.mass > c.mass * 1.1) :
    aaPass [b, c] = ([b.grow (c.mass * 0.5)], 1) := by
  have hinner : aaInner b [c] = AARes.alive (b.grow (c.mass * 0.5)) [] 1 := by
    simp only [aaInner]
    rw [if_pos hov, if_pos h]
  rw [aaPass_cons_alive b _ [c] [] 1 hinner, aaPass_nil]
  simp

theorem aaPass_pair_secondEats (b c : Cell)
    (hov : hits b.x b.y b.radius c.x c.y c.radius)
    (h1 : ¬ b.mass > c.mass * 1.1) (h2 : c.mass > b.mass * 1.1) :
    aaPass [b, c] = ([c.grow (b.mass * 0.5)], 1) := by
  have hinner : aaInner b [c] = AARes.eaten [c.grow (b.mass * 0.5)] 1 := by
    simp only [aaInner]
    rw [if_pos hov, if_neg h1, if_pos h2]
  rw [aaPass_cons_eaten b [c] _ 1 hinner]
  have h2inner : aaInner (c.grow (b.mass * 0.5)) [] = AARes.alive (c.grow (b.mass * 0.5)) [] 0 := by
    simp [aaInner]
  rw [aaPass_cons_alive _ _ [] [] 0 h2inner, aaPass_nil]
  simp

theorem aaPass_pair_noop (b c : Cell)
    (h1 : ¬ b.mass > c.mass * 1.1) (h2 : ¬ c.mass > b.mass * 1.1) :
    aaPass [b, c] = ([b, c], 0) := by
  have hinner : aaInner b [c] = AARes.alive b [c] 0 := by
    simp only [aaInner]
    by_cases hov : hits b.x b.y b.radius c.x c.y c.radius
    · rw [if_pos hov, if_neg h1, if_neg h2]
    · rw [if_neg hov]
  rw [aaPass_cons_alive b b [c] [c] 0 hinner]
  have h2inner : aaInner c [] = AARes.alive c [] 0 := by simp [aaInner]
  rw [aaPass_cons_alive c c [] [] 0 h2inner, aaPass_nil]
  simp

/-- C4 (amended): an overlapping body pair results in consumption exactly
when one mass strictly exceeds 1.1 times the other; a player consuming a
bot and a bot consuming a bot gain exactly half the consumed mass; but a
bot consuming a player cell merely removes the player cell and gains
nothing; overlapping near-equal pairs are untouched. -/
theorem c4_consumption (p a b c : Cell)
    (hov1 : hits p.x p.y p.radius a.x a.y a.radius)
    (hov2 : hits b.x b.y b.radius c.x c.y c.radius) :
    (p.mass > a.mass * 1.1 → paPass [p] [a] = ([p.grow (a.mass * 0.5)], [], 1, false)) ∧
    (¬ p.mass > a.mass * 1.1 → a.mass > p.mass * 1.1 →
        paPass [p] [a] = ([], [a], 0, true)) ∧
    (¬ p.mass > a.mass * 1.1 → ¬ a.mass > p.mass * 1.1 →
        paPass [p] [a] = ([p], [a], 0, false)) ∧
    (b.mass > c.mass * 1.1 → aaPass [b, c] = ([b.grow (c.mass * 0.5)], 1)) ∧
    (¬ b.mass > c.mass * 1.1 → c.mass > b.mass * 1.1 →
        aaPass [b, c] = ([c.grow (b.mass * 0.5)], 1)) ∧
    (¬ b.mass > c.mass * 1.1 → ¬ c.mass > b.mass * 1.1 → aaPass [b, c] = ([b, c], 0)) := by
  exact ⟨fun h => paPass_pair_eatAI p a hov1 h,
    fun h1 h2 => paPass_pair_eatPlayer p a hov1 h1 h2,
    fun h1 h2 => paPass_pair_noop p a h1 h2,
    fun h => aaPass_pair_firstEats b c hov2 h,
    fun h1 h2 => aaPass_pair_secondEats b c hov2 h1 h2,
    fun h1 h2 => aaPass_pair_noop b c h1 h2⟩

/-- Player cell of mass 100 overlapping a larger bot, for the C4
counterexample. -/
def plSmall : Cell := mkCell 0 0 10 100 0 0 true false 0

/-- Bot cell of mass 400 at the same center as plSmall. -/
def aiBig : Cell := mkCell 0 0 20 400 0 0 false false 0

/-- C4 counterexample: the bot of mass 400 overlaps and consumes the
player cell of mass 100, yet the surviving bot still has mass 400: the
larger body gains nothing when a bot consumes a player cell, contradicting
the claimed unconditional 50 percent gain. -/
theorem c4_counterexample :
    aiBig.mass > plSmall.mass * 1.1 ∧
    hits plSmall.x plSmall.y plSmall.radius aiBig.x aiBig.y aiBig.radius ∧
    paPass [plSmall] [aiBig] = ([], [aiBig], 0, true) ∧
    aiBig.mass = 400 ∧ plSmall.mass * 0.5 = 50 := by
  have hov : hits plSmall.x plSmall.y plSmall.radius aiBig.x aiBig.y aiBig.radius := by
    simp only [hits, plSmall, aiBig, mkCell, distance]
    rw [show ((0:ℝ) - 0) ^ 2 + ((0:ℝ) - 0) ^ 2 = 0 by ring, Real.sqrt_zero]
    norm_num
  refine ⟨by norm_num [plSmall, aiBig, mkCell], hov, ?_, by norm_num [aiBig, mkCell],
    by norm_num [plSmall, mkCell]⟩
  exact paPass_pair_eatPlayer plSmall aiBig hov (by norm_num [plSmall, aiBig, mkCell])
    (by norm_num [plSmall, aiBig, mkCell])

/-- C4 witness: concrete instances of all six cases of the amended
consumption theorem, using cells of masses 400 and 100 at a shared
center and masses 100 and 100 for the near-equal case. -/
theorem c4_witness :
    paPass [mkCell 0 0 20 400 0 0 true false 0] [mkCell 0 0 10 100 0 0 false false 0] =
      ([(mkCell 0 0 20 400 0 0 true false 0).grow ((mkCell 0 0 10 100 0 0 false false 0).mass * 0.5)],
        [], 1, false) ∧
    paPass [mkCell 0 0 10 100 0 0 true false 0] [mkCell 0 0 10 100 0 0 false false 0] =
      ([mkCell 0 0 10 100 0 0 true false 0], [mkCell 0 0 10 100 0 0 false false 0], 0, false) ∧
    aaPass [mkCell 0 0 20 400 0 0 false false 0, mkCell 0 0 10 100 0 0 false false 0] =
      ([(mkCell 0 0 20 400 0 0 false false 0).grow
          ((mkCell 0 0 10 100 0 0 false false 0).mass * 0.5)], 1) ∧
    aaPass [mkCell 0 0 10 100 0 0 false false 0, mkCell 0 0 20 400 0 0 false false 0] =
      ([(mkCell 0 0 20 400 0 0 false false 0).grow
          ((mkCell 0 0 10 100 0 0 false false 0).mass * 0.5)], 1) := by
  have hov40 : hits (mkCell 0 0 20 400 0 0 true false 0).x (mkCell 0 0 20 400 0 0 true false 0).y
      (mkCell 0 0 20 400 0 0 true false 0).radius (mkCell 0 0 10 100 0 0 false false 0).x
      (mkCell 0 0 10 100 0 0 false false 0).y (mkCell 0 0 10 100 0 0 false false 0).radius := by
    simp only [hits, mkCell, distance]
    rw [show ((0:ℝ) - 0) ^ 2 + ((0:ℝ) - 0) ^ 2 = 0 by ring, Real.sqrt_zero]
    norm_num
  have hov11 : hits (mkCell 0 0 10 100 0 0 true false 0).x (mkCell 0 0 10 100 0 0 true false 0).y
      (mkCell 0 0 10 100 0 0 true false 0).radius (mkCell 0 0 10 100 0 0 false false 0).x
      (mkCell 0 0 10 100 0 0 false false 0).y (mkCell 0 0 10 100 0 0 false false 0).radius := by
    simp only [hits, mkCell, distance]
    rw [show ((0:ℝ) - 0) ^ 2 + ((0:ℝ) - 0) ^ 2 = 0 by ring, Real.sqrt_zero]
    norm_num
  have hovaa : hits (mkCell 0 0 20 400 0 0 false false 0).x (mkCell 0 0 20 400 0 0 false false 0).y
      (mkCell 0 0 20 400 0 0 false false 0).radius (mkCell 0 0 10 100 0 0 false false 0).x
      (mkCell 0 0 10 100 0 0 false false 0).y (mkCell 0 0 10 100 0 0 false false 0).radius := by
    simp only [hits, mkCell, distance]
    rw [show ((0:ℝ) - 0) ^ 2 + ((0:ℝ) - 0) ^ 2 = 0 by ring, Real.sqrt_zero]
    norm_num
  have hovaa2 : hits (mkCell 0 0 10 100 0 0 false false 0).x (mkCell 0 0 10 100 0 0 false false 0).y
      (mkCell 0 0 10 100 0 0 false false 0).radius (mkCell 0 0 20 400 0 0 false false 0).x
      (mkCell 0 0 20 400 0 0 false false 0).y (mkCell 0 0 20 400 0 0 false false 0).radius := by
    simp only [hits, mkCell, distance]
    rw [show ((0:ℝ) - 0) ^ 2 + ((0:ℝ) - 0) ^ 2 = 0 by ring, Real.sqrt_zero]
    norm_num
  refine ⟨?_, ?_, ?_, ?_⟩
  · exact (c4_consumption _ _ _ _ hov40 hovaa).1 (by norm_num [mkCell])
  · exact (c4_consumption _ _ _ _ hov11 hovaa).2.2.1 (by norm_num [mkCell])
      (by norm_num [mkCell])
  · exact (c4_consumption _ _ _ _ hov40 hovaa).2.2.2.1 (by norm_num [mkCell])
  · exact (c4_consumption _ _ _ _ hov40 hovaa2).2.2.2.2.1 (by norm_num [mkCell])
      (by norm_num [mkCell])

/-- C9 (amended): the bot steering scan skips a zero-distance opponent
entirely, so no steering contribution and no division by the distance can
occur there; the collision passes however do not skip zero-distance
pairs: an overlapping pair at identical centers is consumed normally
(their mass updates involve no division by the distance). -/
theorem c9_zero_distance :
    (∀ (now : ℝ) (bot : Cell) (sx sy : ℝ) (cnt : ℕ) (op : Cell) (rest : List Cell),
        distance bot.x bot.y op.x op.y = 0 →
        botScanAux now bot sx sy cnt (op :: rest) = botScanAux now bot sx sy cnt rest) ∧
    (∀ p a : Cell, distance p.x p.y a.x a.y = 0 → 0 < p.radius + a.radius →
        p.mass > a.mass * 1.1 →
        paPass [p] [a] = ([p.grow (a.mass * 0.5)], [], 1, false)) := by
  constructor
  · intro now bot sx sy cnt op rest hd
    simp only [botScanAux]
    rw [if_pos hd]
  · intro p a hd hr hm
    apply paPass_pair_eatAI p a _ hm
    simp only [hits, hd]
    exact hr

/-- Player cell of mass 400 for the C9 counterexample. -/
def plBig : Cell := mkCell 0 0 20 400 0 0 true false 0

/-- Bot cell of mass 100 at exactly the same center as plBig. -/
def aiSmall : Cell := mkCell 0 0 10 100 0 0 false false 0

/-- C9 counterexample: a zero-distance player and bot pair is processed,
not skipped, by the collision pass: the player consumes the bot at
identical centers, contradicting the claim that collision resolution
skips zero-distance pairs with no consumption. -/
theorem c9_counterexample :
    distance plBig.x plBig.y aiSmall.x aiSmall.y = 0 ∧
    paPass [plBig] [aiSmall] = ([plBig.grow (aiSmall.mass * 0.5)], [], 1, false) := by
  have hd : distance plBig.x plBig.y aiSmall.x aiSmall.y = 0 := by
    simp only [plBig, aiSmall, mkCell, distance]
    rw [show ((0:ℝ) - 0) ^ 2 + ((0:ℝ) - 0) ^ 2 = 0 by ring, Real.sqrt_zero]
  refine ⟨hd, ?_⟩
  apply paPass_pair_eatAI
  · simp only [hits, plBig, aiSmall, mkCell, distance]
    rw [show ((0:ℝ) - 0) ^ 2 + ((0:ℝ) - 0) ^ 2 = 0 by ring, Real.sqrt_zero]
    norm_num
  · norm_num [plBig, aiSmall, mkCell]

/-- C9 witness: the steering skip applied to a bot and an opponent at the
same center, and the zero-distance consumption applied to the mass 400
and mass 100 pair. -/
theorem c9_witness :
    botScanAux 0 (mkCell 0 0 10 100 0 0 false false 0) 0 0 0
        [mkCell 0 0 10 100 0 0 false false 0] =
      botScanAux 0 (mkCell 0 0 10 100 0 0 false false 0) 0 0 0 [] ∧
    paPass [mkCell 0 0 20 400 0 0 true false 0] [mkCell 0 0 10 100 0 0 false false 0] =
      ([(mkCell 0 0 20 400 0 0 true false 0).grow
          ((mkCell 0 0 10 100 0 0 false false 0).mass * 0.5)], [], 1, false) := by
  have hd0 : distance (mkCell 0 0 10 100 0 0 false false 0).x
      (mkCell 0 0 10 100 0 0 false false 0).y (mkCell 0 0 10 100 0 0 false false 0).x
      (mkCell 0 0 10 100 0 0 false false 0).y = 0 := by
    simp only [mkCell, distance]
    rw [show ((0:ℝ) - 0) ^ 2 + ((0:ℝ) - 0) ^ 2 = 0 by ring, Real.sqrt_zero]
  have hd1 : distance (mkCell 0 0 20 400 0 0 true false 0).x
      (mkCell 0 0 20 400 0 0 true false 0).y (mkCell 0 0 10 100 0 0 false false 0).x
      (mkCell 0 0 10 100 0 0 false false 0).y = 0 := by
    simp only [mkCell, distance]
    rw [show ((0:ℝ) - 0) ^ 2 + ((0:ℝ) - 0) ^ 2 = 0 by ring, Real.sqrt_zero]
  constructor
  · exact c9_zero_distance.1 0 _ 0 0 0 _ [] hd0
  · exact c9_zero_distance.2 _ _ hd1 (by norm_num [mkCell]) (by norm_num [mkCell])

theorem foodInner_count (c : Cell) (fs : List Food) :
    (foodInner c fs).2.2 + (foodInner c fs).2.1.length = fs.length := by
  induction fs generalizing c with
  | nil => simp [foodInner]
  | cons f fs ih =>
    simp only [foodInner]
    split_ifs with h
    · have := ih (c.grow (f.radius ^ 2 * 0.5))
      simp only [List.length_cons]
      omega
    · have := ih c
      simp only [List.length_cons]
      omega

theorem foodPassAux_count (cs : List Cell) (fs : List Food) :
    (foodPassAux cs fs).2.2 + (foodPassAux cs fs).2.1.length = fs.length := by
  induction cs generalizing fs with
  | nil => simp [foodPassAux]
  | cons c cs ih =>
    simp only [foodPassAux]
    have h1 := foodInner_count c fs
    have h2 := ih (foodInner c fs).2.1
    omega

theorem foodPass_count (cells : List Cell) (foods : List Food) :
    (foodPass cells foods).2.2 + (foodPass cells foods).2.1.length = foods.length := by
  have := foodPassAux_count cells foods.reverse
  simp only [foodPass, List.length_reverse] at this ⊢
  exact this

theorem paOuter_aiCount (as ps : List Cell) :
    (paOuter as ps).2.2.1 + (paOuter as ps).2.1.length = as.length := by
  induction as generalizing ps with
  | nil => simp [paOuter]
  | cons a as ih =>
    simp only [paOuter]
    cases h : paInner a ps with
    | noAct =>
      have := ih ps
      simp only [List.length_cons]
      omega
    | botEaten ps1 =>
      have := ih ps1
      simp only [List.length_cons]
      omega
    | plEaten ps1 =>
      have := ih ps1
      simp only [List.length_cons]
      omega

theorem paPass_aiCount (ps as : List Cell) :
    (paPass ps as).2.2.1 + (paPass ps as).2.1.length = as.length := by
  have := paOuter_aiCount as.reverse ps.reverse
  simp only [paPass, List.length_reverse] at this ⊢
  exact this

theorem aaInner_count (a : Cell) (l : List Cell) :
    (∀ a2 r n, aaInner a l = AARes.alive a2 r n → r.length + n = l.length) ∧
    (∀ r n, aaInner a l = AARes.eaten r n → r.length + n = l.length + 1) := by
  induction l generalizing a with
  | nil =>
    constructor
    · intro a2 r n h
      simp only [aaInner, AARes.alive.injEq] at h
      obtain ⟨h1, h2, h3⟩ := h
      subst h2; subst h3
      rfl
    · intro r n h
      simp [aaInner] at h
  | cons b bs ih =>
    constructor
    · intro a2 r n h
      simp only [aaInner] at h
      split_ifs at h with h1 h2 h3
      · cases hr : aaInner (a.grow (b.mass * 0.5)) bs with
        | alive a3 r3 n3 =>
          rw [hr] at h
          simp only [AARes.alive.injEq] at h
          obtain ⟨e1, e2, e3⟩ := h
          subst e2; subst e3
          have := (ih (a.grow (b.mass * 0.5))).1 a3 r3 n3 hr
          simp only [List.length_cons]
          omega
        | eaten r3 n3 =>
          rw [hr] at h
          simp at h
      · cases hr : aaInner a bs with
        | alive a3 r3 n3 =>
          rw [hr] at h
          simp only [AARes.alive.injEq] at h
          obtain ⟨e1, e2, e3⟩ := h
          subst e2; subst e3
          have := (ih a).1 a3 r3 n3 hr
          simp only [List.length_cons]
          omega
        | eaten r3 n3 =>
          rw [hr] at h
          simp at h
      · cases hr : aaInner a bs with
        | alive a3 r3 n3 =>
          rw [hr] at h
          simp only [AARes.alive.injEq] at h
          obtain ⟨e1, e2, e3⟩ := h
          subst e2; subst e3
          have := (ih a).1 a3 r3 n3 hr
          simp only [List.length_cons]
          omega
        | eaten r3 n3 =>
          rw [hr] at h
          simp at h
    · intro r n h
      simp only [aaInner] at h
      split_ifs at h with h1 h2 h3
      · cases hr : aaInner (a.grow (b.mass * 0.5)) bs with
        | alive a3 r3 n3 =>
          rw [hr] at h
          simp at h
        | eaten r3 n3 =>
          rw [hr] at h
          simp only [AARes.eaten.injEq] at h
          obtain ⟨e1, e2⟩ := h
          subst e1; subst e2
          have := (ih (a.grow (b.mass * 0.5))).2 r3 n3 hr
          simp only [List.length_cons]
          omega
      · simp only [AARes.eaten.injEq] at h
        obtain ⟨e1, e2⟩ := h
        subst e1; subst e2
        simp
      · cases hr : aaInner a bs with
        | alive a3 r3 n3 =>
          rw [hr] at h
          simp at h
        | eaten r3 n3 =>
          rw [hr] at h
          simp only [AARes.eaten.injEq] at h
          obtain ⟨e1, e2⟩ := h
          subst e1; subst e2
          have := (ih a).2 r3 n3 hr
          simp only [List.length_cons]
          omega
      · cases hr : aaInner a bs with
        | alive a3 r3 n3 =>
          rw [hr] at h
          simp at h
        | eaten r3 n3 =>
          rw [hr] at h
          simp only [AARes.eaten.injEq] at h
          obtain ⟨e1, e2⟩ := h
          subst e1; subst e2
          have := (ih a).2 r3 n3 hr
          simp only [List.length_cons]
          omega

theorem aaPass_count_aux (m : ℕ) :
    ∀ l : List Cell, l.length ≤ m → (aaPass l).1.length + (aaPass l).2 = l.length := by
  induction m with
  | zero =>
    intro l hl
    have : l = [] := List.length_eq_zero.mp (Nat.le_zero.mp hl)
    subst this
    simp [aaPass_nil]
  | succ m ih =>
    intro l hl
    cases l with
    | nil => simp [aaPass_nil]
    | cons a rest =>
      cases hr : aaInner a rest with
      | alive a2 r n =>
        rw [aaPass_cons_alive a a2 rest r n hr]
        have hcount := (aaInner_count a rest).1 a2 r n hr
        have hlen : r.length ≤ m := by
          have hrl := aaInner_rest_length a rest
          rw [hr] at hrl
          simp only [AARes.rest] at hrl
          simp only [List.length_cons] at hl
          omega
        have := ih r hlen
        simp only [List.length_cons]
        omega
      | eaten r n =>
        rw [aaPass_cons_eaten a rest r n hr]
        have hcount := (aaInner_count a rest).2 r n hr
        have hlen : r.length ≤ m := by
          have hrl := aaInner_rest_length a rest
          rw [hr] at hrl
          simp only [AARes.rest] at hrl
          simp only [List.length_cons] at hl
          omega
        have := ih r hlen
        simp only [List.length_cons]
        omega

theorem aaPass_count (l : List Cell) :
    (aaPass l).1.length + (aaPass l).2 = l.length :=
  aaPass_count_aux l.length l le_rfl

theorem hexInner_count (c : Cell) (hs : List Hexagon) :
    (hexInner c hs).2.1.length + (hexInner c hs).2.2.length = hs.length := by
  induction hs generalizing c with
  | nil => simp [hexInner]
  | cons h hs ih =>
    simp only [hexInner]
    split_ifs with hv
    · have := ih (c.grow (h.massBonus * 1.5))
      simp only [List.length_cons]
      omega
    · have := ih c
      simp only [List.length_cons]
      omega

theorem hexPassAux_count (cs : List Cell) (hs : List Hexagon) :
    (hexPassAux cs hs).2.1.length + (hexPassAux cs hs).2.2.length = hs.length := by
  induction cs generalizing hs with
  | nil => simp [hexPassAux]
  | cons c cs ih =>
    simp only [hexPassAux]
    have h1 := hexInner_count c hs
    have h2 := ih (hexInner c hs).2.1
    simp only [List.length_append]
    omega

theorem hexPass_count (cells : List Cell) (hexes : List Hexagon) :
    (hexPass cells hexes).2.1.length + (hexPass cells hexes).2.2.length = hexes.length := by
  have := hexPassAux_count cells hexes.reverse
  simp only [hexPass, List.length_reverse] at this ⊢
  exact this

/-- C8 (amended): each pellet consumption makes exactly one spawnFood
policy call, and each bot removal by consumption makes exactly one
spawnAICell call, in both the player-versus-bot and bot-versus-bot
passes; consuming a hexagon however triggers no replacement spawn at
all, only the removal of the hexagon and one transient rainbow effect
per consumption. -/
theorem c8_spawn_policy :
    (∀ (cells : List Cell) (foods : List Food),
        (foodPass cells foods).2.2 + (foodPass cells foods).2.1.length = foods.length) ∧
    (∀ ps as : List Cell,
        (paPass ps as).2.2.1 + (paPass ps as).2.1.length = as.length) ∧
    (∀ as : List Cell, (aaPass as).1.length + (aaPass as).2 = as.length) ∧
    (∀ (cells : List Cell) (hexes : List Hexagon),
        (hexPass cells hexes).2.1.length + (hexPass cells hexes).2.2.length = hexes.length) :=
  ⟨foodPass_count, paPass_aiCount, aaPass_count, hexPass_count⟩

/-- World holding one player cell and one hexagon at a shared center,
used to refute the structure-respawn part of C8. -/
def wHex : World :=
  ⟨[mkCell 0 0 10 100 0 0 true false 0], [], [], [⟨0, 0, 10, 0, 0, 100⟩], [], false⟩

/-- C8 counterexample: a tick in which the only event is a hexagon
consumption removes the hexagon and pushes one rainbow effect but makes
zero spawn-policy calls of any kind, so consuming a bonus structure does
not trigger a replacement structure spawn. -/
theorem c8_counterexample :
    (updateConsumption 0 wHex).world.hexagons = [] ∧
    (updateConsumption 0 wHex).spawnFoodCalls = 0 ∧
    (updateConsumption 0 wHex).spawnAICalls = 0 ∧
    (updateConsumption 0 wHex).world.rainbowEffects = [((0 : ℝ), (0 : ℝ))] := by
  have hov : hits (0 : ℝ) 0 10 0 0 10 := by
    simp only [hits, distance]
    rw [show ((0:ℝ) - 0) ^ 2 + ((0:ℝ) - 0) ^ 2 = 0 by ring, Real.sqrt_zero]
    norm_num
  simp [updateConsumption, wHex, mkCell, foodPass, foodPassAux, foodInner, paPass, paOuter,
    paInner, aaPass_nil, hexPass, hexPassAux, hexInner, hov, mergePass_cons, mergeInner,
    mergePass_nil]

/-- C7 (amended): within a tick the resolver processes the categories in
the order body versus pellet, then player versus agent, then agent versus
agent, and only then body versus bonus structure (before the merge pass):
the surviving bot set is fully determined by the food-pass outputs with
no hexagon involvement, the hexagon pass receives the player cells as
left by the player-versus-agent pass, and the merge pass runs on the
hexagon-pass output. -/
theorem c7_pass_order (now : ℝ) (w : World) :
    (updateConsumption now w).world.aiCells =
      (aaPass (paPass (foodPass w.playerCells w.foods).1
        (foodPass w.aiCells (foodPass w.playerCells w.foods).2.1).1).2.1).1 ∧
    (updateConsumption now w).world.playerCells =
      mergePass now (hexPass (paPass (foodPass w.playerCells w.foods).1
        (foodPass w.aiCells (foodPass w.playerCells w.foods).2.1).1).1 w.hexagons).1 ∧
    (updateConsumption now w).world.hexagons =
      (hexPass (paPass (foodPass w.playerCells w.foods).1
        (foodPass w.aiCells (foodPass w.playerCells w.foods).2.1).1).1 w.hexagons).2.1 :=
  ⟨rfl, rfl, rfl⟩

/-- World with a player of mass 100, a bot of mass 100, and a hexagon of
bonus 100, all at a shared center: the order of the hexagon pass relative
to the body passes decides whether the bot survives the tick. -/
def wOrder : World :=
  ⟨[mkCell 0 0 10 100 0 0 true false 0], [mkCell 0 0 10 100 0 0 false false 0], [],
    [⟨0, 0, 10, 0, 0, 100⟩], [], false⟩

/-- C7 counterexample: under the source order the player meets the bot
before eating the hexagon, the masses are equal, and the bot survives the
tick; under the order claimed by the specification the hexagon bonus
would land first and the grown player would consume the bot.  The two
orders produce different bot sets on the same world, so the resolver does
not process bonus structures before the body passes. -/
theorem c7_counterexample :
    (updateConsumption 0 wOrder).world.aiCells.length = 1 ∧
    (specOrderConsumption 0 wOrder).world.aiCells.length = 0 := by
  have hov : hits (0 : ℝ) 0 10 0 0 10 := by
    simp only [hits, distance]
    rw [show ((0:ℝ) - 0) ^ 2 + ((0:ℝ) - 0) ^ 2 = 0 by ring, Real.sqrt_zero]
    norm_num
  have hfoodP : foodPass [mkCell 0 0 10 100 0 0 true false 0] ([] : List Food) =
      ([mkCell 0 0 10 100 0 0 true false 0], [], 0) := by
    simp [foodPass, foodPassAux, foodInner]
  have hfoodA : foodPass [mkCell 0 0 10 100 0 0 false false 0] ([] : List Food) =
      ([mkCell 0 0 10 100 0 0 false false 0], [], 0) := by
    simp [foodPass, foodPassAux, foodInner]
  have hpa : paPass [mkCell 0 0 10 100 0 0 true false 0]
      [mkCell 0 0 10 100 0 0 false false 0] =
      ([mkCell 0 0 10 100 0 0 true false 0], [mkCell 0 0 10 100 0 0 false false 0], 0, false) :=
    paPass_pair_noop _ _ (by norm_num [mkCell]) (by norm_num [mkCell])
  have haa1 : aaPass [mkCell 0 0 10 100 0 0 false false 0] =
      ([mkCell 0 0 10 100 0 0 false false 0], 0) := by
    rw [aaPass_cons_alive (mkCell 0 0 10 100 0 0 false false 0)
      (mkCell 0 0 10 100 0 0 false false 0) [] [] 0 (by simp [aaInner]), aaPass_nil]
    simp
  have hhex : hexPass [mkCell 0 0 10 100 0 0 true false 0]
      [(⟨0, 0, 10, 0, 0, 100⟩ : Hexagon)] =
      ([(mkCell 0 0 10 100 0 0 true false 0).grow ((100 : ℝ) * 1.5)], [], [(0, 0)]) := by
    simp [hexPass, hexPassAux, hexInner, mkCell, hov]
  constructor
  · simp only [updateConsumption, wOrder]
    rw [hfoodP, hfoodA]
    simp only
    rw [hpa]
    simp only
    rw [haa1]
    rfl
  · have hpaG : paPass [(mkCell 0 0 10 100 0 0 true false 0).grow ((100 : ℝ) * 1.5)]
        [mkCell 0 0 10 100 0 0 false false 0] =
        ([((mkCell 0 0 10 100 0 0 true false 0).grow ((100 : ℝ) * 1.5)).grow
            ((mkCell 0 0 10 100 0 0 false false 0).mass * 0.5)], [], 1, false) := by
      apply paPass_pair_eatAI
      · simp only [hits, Cell.grow, mkCell, distance]
        rw [show ((0:ℝ) - 0) ^ 2 + ((0:ℝ) - 0) ^ 2 = 0 by ring, Real.sqrt_zero]
        positivity
      · simp only [Cell.grow, mkCell]
        norm_num
    simp only [specOrderConsumption, wOrder]
    rw [hfoodP, hfoodA]
    simp only
    rw [hhex]
    simp only
    rw [hpaG]
    simp only
    rw [aaPass_nil]
    rfl

theorem botScanAux_newBots_le (now : ℝ) (bot : Cell) (ops : List Cell) :
    ∀ (sx sy : ℝ) (cnt : ℕ), (botScanAux now bot sx sy cnt ops).newBots.length ≤ 1 := by
  induction ops with
  | nil => intro sx sy cnt; simp [botScanAux]
  | cons op rest ih =>
    intro sx sy cnt
    simp only [botScanAux]
    split_ifs
    all_goals first
      | apply ih
      | (cases hsb : (splitBot now 20 bot).2 <;> simp [hsb])

theorem botScanAux_cnt_le (now : ℝ) (bot : Cell) (ops : List Cell) :
    ∀ (sx sy : ℝ) (cnt : ℕ), cnt ≤ (botScanAux now bot sx sy cnt ops).cnt := by
  induction ops with
  | nil => intro sx sy cnt; simp [botScanAux]
  | cons op rest ih =>
    intro sx sy cnt
    simp only [botScanAux]
    split_ifs
    all_goals first
      | apply ih
      | omega
      | (exact le_trans (by omega : cnt ≤ cnt + 1) (ih _ _ _))
      | (exact le_trans (by omega : cnt ≤ cnt + 1 + 1) (ih _ _ _))
      | (simp only []; omega)

theorem botScanAux_cnt_eq (now : ℝ) (bot : Cell) (ops : List Cell) :
    ∀ (sx sy : ℝ) (cnt : ℕ), (botScanAux now bot sx sy cnt ops).cnt = cnt →
      botScanAux now bot sx sy cnt ops = ⟨sx, sy, cnt, bot, [], false⟩ := by
  induction ops with
  | nil => intro sx sy cnt _; simp [botScanAux]
  | cons op rest ih =>
    intro sx sy cnt h
    simp only [botScanAux] at h ⊢
    split_ifs at h ⊢
    all_goals first
      | exact ih _ _ _ h
      | exact absurd h (Ne.symm (Nat.ne_of_lt (lt_of_lt_of_le
          (by omega : cnt < cnt + 1) (botScanAux_cnt_le now bot rest _ _ (cnt + 1)))))
      | exact absurd h (Ne.symm (Nat.ne_of_lt (lt_of_lt_of_le
          (by omega : cnt < cnt + 1 + 1) (botScanAux_cnt_le now bot rest _ _ (cnt + 1 + 1)))))
      | (simp only [] at h; omega)
      | omega

theorem prey_of_splitCond (bot op : Cell) (hm : 0 < bot.mass)
    (hmass : (bot.isBoss ∧ op.mass < bot.mass * 0.45) ∨ (¬bot.isBoss ∧ op.mass < bot.mass / 3))
    (hd2 : distance bot.x bot.y op.x op.y < splitDistance) :
    op.mass < bot.mass * 0.9 ∧ distance bot.x bot.y op.x op.y < effectivePreyDistance bot := by
  constructor
  · rcases hmass with ⟨_, hlt⟩ | ⟨_, hlt⟩ <;> nlinarith
  · simp only [effectivePreyDistance, preyDistance]
    simp only [splitDistance] at hd2
    split_ifs <;> linarith

/-- C5: while a bot is chasing an opponent (a chase contribution requires
a nonzero distance), the full-force split with impulse 20 is invoked
exactly when the opponent mass is below 0.45 of the bot mass for a boss or
below one third for a non-boss, the distance is below 150, and strictly
more than the 2500 millisecond cooldown has elapsed since the bot's last
split; the scan of later opponents then stops, the scan produces at most
one new bot per tick, and for a bot of splittable mass the trigger halves
the bot and ejects a half-mass child with impulse 20 along the bot
heading. -/
theorem c5_split_trigger (now : ℝ) (bot op : Cell)
    (hm : 0 < bot.mass)
    (hd : ¬ distance bot.x bot.y op.x op.y = 0) :
    ((botScan now bot [op]).triggered = true ↔
      (((bot.isBoss ∧ op.mass < bot.mass * 0.45) ∨ (¬bot.isBoss ∧ op.mass < bot.mass / 3)) ∧
        distance bot.x bot.y op.x op.y < splitDistance ∧
        now - bot.lastSplitTime > MERGE_DELAY)) ∧
    (∀ (sx sy : ℝ) (cnt : ℕ) (rest : List Cell),
      (((bot.isBoss ∧ op.mass < bot.mass * 0.45) ∨ (¬bot.isBoss ∧ op.mass < bot.mass / 3)) ∧
        distance bot.x bot.y op.x op.y < splitDistance ∧
        now - bot.lastSplitTime > MERGE_DELAY) →
      botScanAux now bot sx sy cnt (op :: rest) = botScanAux now bot sx sy cnt [op]) ∧
    (∀ ops : List Cell, (botScan now bot ops).newBots.length ≤ 1) ∧
    (¬ bot.mass < 40 →
      (((bot.isBoss ∧ op.mass < bot.mass * 0.45) ∨ (¬bot.isBoss ∧ op.mass < bot.mass / 3)) ∧
        distance bot.x bot.y op.x op.y < splitDistance ∧
        now - bot.lastSplitTime > MERGE_DELAY) →
      (botScan now bot [op]).bot.mass = bot.mass / 2 ∧
      (botScan now bot [op]).newBots.map Cell.mass = [bot.mass / 2] ∧
      (botScan now bot [op]).newBots.map Cell.extraVX = [cosAtan2 bot.vy bot.vx * 20] ∧
      (botScan now bot [op]).newBots.map Cell.extraVY = [sinAtan2 bot.vy bot.vx * 20]) := by
  refine ⟨⟨?_, ?_⟩, ?_, ?_, ?_⟩
  · intro ht
    by_contra hcond
    simp only [botScan, botScanAux] at ht
    rw [if_neg hd] at ht
    by_cases hp : op.mass < bot.mass * 0.9 ∧
        distance bot.x bot.y op.x op.y < effectivePreyDistance bot
    · rw [if_pos hp, if_neg hcond] at ht
      simp [botScanAux] at ht
    · rw [if_neg hp] at ht
      simp [botScanAux] at ht
  · intro hcond
    have hp := prey_of_splitCond bot op hm hcond.1 hcond.2.1
    simp only [botScan, botScanAux]
    rw [if_neg hd, if_pos hp, if_pos hcond]
  · intro sx sy cnt rest hcond
    have hp := prey_of_splitCond bot op hm hcond.1 hcond.2.1
    simp only [botScanAux]
    rw [if_neg hd, if_pos hp, if_pos hcond, if_neg hd, if_pos hp, if_pos hcond]
  · intro ops
    exact botScanAux_newBots_le now bot ops 0 0 0
  · intro hge hcond
    have hp := prey_of_splitCond bot op hm hcond.1 hcond.2.1
    have heval : botScan now bot [op] =
        ⟨(if op.mass > bot.mass * 1.1 ∧ distance bot.x bot.y op.x op.y < dangerDistance
            then 0 - (op.x - bot.x) / distance bot.x bot.y op.x op.y else 0) +
            (op.x - bot.x) / distance bot.x bot.y op.x op.y,
          (if op.mass > bot.mass * 1.1 ∧ distance bot.x bot.y op.x op.y < dangerDistance
            then 0 - (op.y - bot.y) / distance bot.x bot.y op.x op.y else 0) +
            (op.y - bot.y) / distance bot.x bot.y op.x op.y,
          (if op.mass > bot.mass * 1.1 ∧ distance bot.x bot.y op.x op.y < dangerDistance
            then 0 + 1 else 0) + 1,
          (splitBot now 20 bot).1, (splitBot now 20 bot).2.toList, true⟩ := by
      simp only [botScan, botScanAux]
      rw [if_neg hd, if_pos hp, if_pos hcond]
    rw [heval]
    simp [splitBot, hge]

/-- Non-boss bot of mass 300 heading along the x axis, for the C5
witness. -/
def botB5 : Cell := mkCell 0 0 (Real.sqrt 300) 300 1 0 false false 0

/-- Opponent of mass 90 at distance 100 from botB5. -/
def opB5 : Cell := mkCell 100 0 (Real.sqrt 90) 90 0 0 true false 0

/-- C5 witness, the scenario of the claim: a non-boss bot of mass 300
meets an opponent of mass 90 at distance 100 with the cooldown elapsed at
time 3000; the split triggers and produces two bodies of mass 150. -/
theorem c5_witness :
    (botScan 3000 botB5 [opB5]).triggered = true ∧
    (botScan 3000 botB5 [opB5]).bot.mass = 150 ∧
    (botScan 3000 botB5 [opB5]).newBots.map Cell.mass = [150] := by
  have hdist : distance botB5.x botB5.y opB5.x opB5.y = 100 := by
    simp only [distance, botB5, opB5, mkCell]
    rw [show ((100:ℝ) - 0) ^ 2 + ((0:ℝ) - 0) ^ 2 = 100 ^ 2 by ring,
      Real.sqrt_sq (by norm_num : (0:ℝ) ≤ 100)]
  have hm : (0:ℝ) < botB5.mass := by norm_num [botB5, mkCell]
  have hd : ¬ distance botB5.x botB5.y opB5.x opB5.y = 0 := by
    rw [hdist]; norm_num
  have hcond : ((botB5.isBoss ∧ opB5.mass < botB5.mass * 0.45) ∨
      (¬botB5.isBoss ∧ opB5.mass < botB5.mass / 3)) ∧
      distance botB5.x botB5.y opB5.x opB5.y < splitDistance ∧
      (3000:ℝ) - botB5.lastSplitTime > MERGE_DELAY := by
    refine ⟨Or.inr ⟨?_, ?_⟩, ?_, ?_⟩
    · simp [botB5, mkCell]
    · norm_num [botB5, opB5, mkCell]
    · rw [hdist]; norm_num [splitDistance]
    · norm_num [botB5, mkCell, MERGE_DELAY]
  have h := c5_split_trigger 3000 botB5 opB5 hm hd
  have heff := h.2.2.2 (by norm_num [botB5, mkCell]) hcond
  refine ⟨h.1.mpr hcond, ?_, ?_⟩
  · rw [heff.1]; norm_num [botB5, mkCell]
  · rw [heff.2.1]; norm_num [botB5, mkCell]

/-- C6 (amended): after the opponent scan of a bot, if at least one
contribution was accumulated and the accumulator is not the zero vector,
the new velocity has magnitude exactly the freshly drawn speed, which lies
in the interval from 0.5 to 2; if contributions were accumulated but they
cancelled to the zero vector, the velocity is set to the zero vector, not
to a unit direction; and if no contribution was accumulated the bot is
returned completely unchanged. -/
theorem c6_steering (now speed : ℝ) (bot : Cell) (ops : List Cell)
    (hs1 : 0.5 ≤ speed) (hs2 : speed ≤ 2) :
    (0 < (botScan now bot ops).cnt →
      ¬((botScan now bot ops).sx = 0 ∧ (botScan now bot ops).sy = 0) →
      Real.sqrt ((updateBotOne now speed bot ops).1.vx ^ 2 +
        (updateBotOne now speed bot ops).1.vy ^ 2) = speed) ∧
    (0 < (botScan now bot ops).cnt → (botScan now bot ops).sx = 0 →
      (botScan now bot ops).sy = 0 →
      (updateBotOne now speed bot ops).1.vx = 0 ∧
      (updateBotOne now speed bot ops).1.vy = 0) ∧
    ((botScan now bot ops).cnt = 0 → (updateBotOne now speed bot ops).1 = bot) := by
  refine ⟨?_, ?_, ?_⟩
  · intro hcnt hnz
    simp only [updateBotOne, applySteer]
    rw [if_pos hcnt]
    set r := botScan now bot ops with hr
    set ax := r.sx / (r.cnt : ℝ) with hax
    set ay := r.sy / (r.cnt : ℝ) with hay
    have hcne : ((r.cnt : ℝ)) ≠ 0 := by
      exact_mod_cast Nat.pos_iff_ne_zero.mp hcnt
    have hnz2 : ¬(ax = 0 ∧ ay = 0) := by
      intro ⟨hx, hy⟩
      apply hnz
      constructor
      · field_simp [hax] at hx
        exact hx
      · field_simp [hay] at hy
        exact hy
    have hsum : 0 < ax ^ 2 + ay ^ 2 := by
      rcases not_and_or.mp hnz2 with hx | hy
      · have h1 : 0 < ax ^ 2 := lt_of_le_of_ne (sq_nonneg ax) (Ne.symm (pow_ne_zero 2 hx))
        nlinarith [sq_nonneg ay]
      · have h1 : 0 < ay ^ 2 := lt_of_le_of_ne (sq_nonneg ay) (Ne.symm (pow_ne_zero 2 hy))
        nlinarith [sq_nonneg ax]
    have hmag : 0 < Real.sqrt (ax ^ 2 + ay ^ 2) := Real.sqrt_pos.mpr hsum
    rw [if_pos hmag, if_pos hmag]
    have hmne : Real.sqrt (ax ^ 2 + ay ^ 2) ≠ 0 := ne_of_gt hmag
    have hexp : (ax / Real.sqrt (ax ^ 2 + ay ^ 2) * speed) ^ 2 +
        (ay / Real.sqrt (ax ^ 2 + ay ^ 2) * speed) ^ 2 = speed ^ 2 := by
      have hsq : Real.sqrt (ax ^ 2 + ay ^ 2) ^ 2 = ax ^ 2 + ay ^ 2 :=
        Real.sq_sqrt hsum.le
      field_simp
      nlinarith [hsq]
    simp only
    rw [hexp, Real.sqrt_sq (by linarith : (0:ℝ) ≤ speed)]
  · intro hcnt hx hy
    simp only [updateBotOne, applySteer]
    rw [if_pos hcnt]
    simp [hx, hy]
  · intro hcnt
    have hbot := botScanAux_cnt_eq now bot ops 0 0 0 hcnt
    simp only [updateBotOne, applySteer, botScan] at *
    rw [hbot]
    simp

/-- Non-boss bot of mass 100 with velocity 3 along the x axis, for the C6
counterexample. -/
def botC6 : Cell := mkCell 0 0 10 100 3 0 false false 0

/-- Larger opponent of mass 400 at distance 100 from botC6: a flee
contribution. -/
def opA6 : Cell := mkCell 100 0 20 400 0 0 true false 0

/-- Smaller opponent of mass 50 at distance 200 on the same ray: a chase
contribution that exactly cancels the flee contribution. -/
def opB6 : Cell := mkCell 200 0 (Real.sqrt 50) 50 0 0 true false 0

theorem c6_scan_eval : botScan 0 botC6 [opA6, opB6] = ⟨0, 0, 2, botC6, [], false⟩ := by
  have hdA : distance botC6.x botC6.y opA6.x opA6.y = 100 := by
    simp only [distance, botC6, opA6, mkCell]
    rw [show ((100:ℝ) - 0) ^ 2 + ((0:ℝ) - 0) ^ 2 = 100 ^ 2 by ring,
      Real.sqrt_sq (by norm_num : (0:ℝ) ≤ 100)]
  have hdB : distance botC6.x botC6.y opB6.x opB6.y = 200 := by
    simp only [distance, botC6, opB6, mkCell]
    rw [show ((200:ℝ) - 0) ^ 2 + ((0:ℝ) - 0) ^ 2 = 200 ^ 2 by ring,
      Real.sqrt_sq (by norm_num : (0:ℝ) ≤ 200)]
  simp only [botScan, botScanAux, hdA, hdB]
  norm_num [botC6, opA6, opB6, mkCell, dangerDistance, effectivePreyDistance, preyDistance,
    splitDistance, MERGE_DELAY]

/-- C6 counterexample: the flee contribution from the large opponent and
the chase contribution toward the small opponent cancel exactly, the
contribution count is 2, and the bot's velocity is set to the zero
vector, whose magnitude 0 equals no admissible speed from the interval
0.5 to 2, refuting the unconditional unit-length claim. -/
theorem c6_counterexample :
    0 < (botScan 0 botC6 [opA6, opB6]).cnt ∧
    (updateBotOne 0 1 botC6 [opA6, opB6]).1.vx = 0 ∧
    (updateBotOne 0 1 botC6 [opA6, opB6]).1.vy = 0 ∧
    (∀ s : ℝ, 0.5 ≤ s → s ≤ 2 →
      Real.sqrt ((updateBotOne 0 1 botC6 [opA6, opB6]).1.vx ^ 2 +
        (updateBotOne 0 1 botC6 [opA6, opB6]).1.vy ^ 2) ≠ s) := by
  have hupd : (updateBotOne 0 1 botC6 [opA6, opB6]).1 = { botC6 with vx := 0, vy := 0 } := by
    simp only [updateBotOne, c6_scan_eval, applySteer]
    norm_num [Real.sqrt_zero]
  refine ⟨by rw [c6_scan_eval]; norm_num, by rw [hupd], by rw [hupd], ?_⟩
  intro s hs1 hs2
  rw [hupd]
  simp only
  rw [show (0:ℝ) ^ 2 + (0:ℝ) ^ 2 = 0 by ring, Real.sqrt_zero]
  linarith

/-- Bot of mass 100 for the C6 witness, with a single flee opponent. -/
def botW6 : Cell := mkCell 0 0 10 100 1 0 false false 0

/-- Large opponent of mass 400 at distance 100 from botW6. -/
def opW6 : Cell := mkCell 100 0 20 400 0 0 true false 0

theorem c6_scan_single : botScan 0 botW6 [opW6] = ⟨0 - 1, 0, 1, botW6, [], false⟩ := by
  have hdA : distance botW6.x botW6.y opW6.x opW6.y = 100 := by
    simp only [distance, botW6, opW6, mkCell]
    rw [show ((100:ℝ) - 0) ^ 2 + ((0:ℝ) - 0) ^ 2 = 100 ^ 2 by ring,
      Real.sqrt_sq (by norm_num : (0:ℝ) ≤ 100)]
  simp only [botScan, botScanAux, hdA]
  norm_num [botW6, opW6, mkCell, dangerDistance, effectivePreyDistance, preyDistance,
    splitDistance, MERGE_DELAY]

/-- C6 witness: with one flee contribution the updated velocity of the
bot has magnitude exactly the drawn speed 1; with the cancelling pair the
velocity is the zero vector; and with no opponents the bot is unchanged. -/
theorem c6_witness :
    Real.sqrt ((updateBotOne 0 1 botW6 [opW6]).1.vx ^ 2 +
      (updateBotOne 0 1 botW6 [opW6]).1.vy ^ 2) = 1 ∧
    ((updateBotOne 0 1 botC6 [opA6, opB6]).1.vx = 0 ∧
      (updateBotOne 0 1 botC6 [opA6, opB6]).1.vy = 0) ∧
    (updateBotOne 0 1 botW6 []).1 = botW6 := by
  refine ⟨?_, ?_, ?_⟩
  · exact (c6_steering 0 1 botW6 [opW6] (by norm_num) (by norm_num)).1
      (by rw [c6_scan_single]; norm_num)
      (by rw [c6_scan_single]; norm_num)
  · exact (c6_steering 0 1 botC6 [opA6, opB6] (by norm_num) (by norm_num)).2.1
      (by rw [c6_scan_eval]; norm_num)
      (by rw [c6_scan_eval])
      (by rw [c6_scan_eval])
  · exact (c6_steering 0 1 botW6 [] (by norm_num) (by norm_num)).2.2
      (by simp [botScan, botScanAux])

end Agario
